import Mathlib

/-!
Verification development for the photo-collage maker
(`photo-collage-maker.py`): the layout planner
(`arrange_images_on_canvas`, lines 93-153), the face-aware cropper
(`crop_image`, lines 39-74) and the RGB color parser
(`parse_rgb_color`, lines 77-90), embedded over exact rational and
real arithmetic.  Python's float arithmetic is modelled exactly
(the spec itself assumes exact rational arithmetic in the
intermediate scale computation); `int()` is modelled as truncation
toward zero, `//` as floor division, and `round()` as
round-half-to-even, matching Python's semantics on exact values.
-/

namespace PhotoCollage

/-- Python `int()` applied to an exact rational value: truncation toward
zero (floor for nonnegative arguments, ceiling for negative ones). -/
def pyInt (q : ℚ) : ℤ := if q < 0 then ⌈q⌉ else ⌊q⌋

/-- Python integer floor division `a // b` (rounds toward negative
infinity, unlike `int()`-truncation). -/
def pyFloorDiv (a b : ℤ) : ℤ := Int.fdiv a b

/-! ## Layout planner (`arrange_images_on_canvas`)

An image is represented by its aspect ratio `width / height : ℚ`;
that is the only datum of an `ImageRecord` the planner's geometry
reads.  All geometry functions take the aspect-ratio list in input
order (after the optional external shuffle). -/

/-- Line 120: `num_cols = (num_images + num_rows - 1) // num_rows`
(ceiling division for `num_rows ≥ 1`). -/
def num_cols (num_images num_rows : ℕ) : ℕ := (num_images + num_rows - 1) / num_rows

/-- Line 121: `target_height = (canvas_height - (num_rows + 1) * padding) // num_rows`,
Python floor division, computed once and shared by every row. -/
def target_height (canvas_height num_rows padding : ℕ) : ℤ :=
  pyFloorDiv ((canvas_height : ℤ) - (num_rows + 1) * padding) num_rows

/-- Line 129: `row_images = images[row * num_cols : (row + 1) * num_cols]`,
a contiguous slice of `cols` aspect ratios. -/
def row_images (ars : List ℚ) (cols row : ℕ) : List ℚ :=
  (ars.drop (row * cols)).take cols

/-- Line 130: `total_width = sum(img.width / img.height * target_height ...)`. -/
def total_width (row : List ℚ) (th : ℤ) : ℚ :=
  (row.map (fun a => a * (th : ℚ))).sum

/-- Line 131: `scale_factor = (canvas_width - (len(row_images) + 1) * padding) / total_width
if total_width > 0 else 1`. -/
def scale_factor (canvas_width padding : ℕ) (row : List ℚ) (th : ℤ) : ℚ :=
  if 0 < total_width row th then
    ((canvas_width : ℚ) - (row.length + 1) * padding) / total_width row th
  else 1

/-- Line 134: `adjusted_widths = [int((w/h) * target_height * scale_factor) ...]`
(`int()` truncates toward zero). -/
def adjusted_widths (canvas_width padding : ℕ) (row : List ℚ) (th : ℤ) : List ℤ :=
  row.map fun a => pyInt (a * (th : ℚ) * scale_factor canvas_width padding row th)

/-- Line 135: `width_difference = canvas_width - sum(adjusted_widths) - (len(row_images) + 1) * padding`. -/
def width_difference (canvas_width padding : ℕ) (row : List ℚ) (th : ℤ) : ℤ :=
  (canvas_width : ℤ) - (adjusted_widths canvas_width padding row th).sum
    - (row.length + 1) * padding

/-- Lines 139-140: `for i in range(d): adjusted_widths[i % len(adjusted_widths)] += 1`,
one pixel at a time, cyclically from the first image.  `distribute ws d`
is the state of the list after the first `d` iterations. -/
def distribute (ws : List ℤ) : ℕ → List ℤ
  | 0 => ws
  | d + 1 =>
    let prev := distribute ws d
    prev.set (d % prev.length) (prev.getD (d % prev.length) 0 + 1)

/-- Lines 138-140: the adjusted widths after remainder distribution; the
loop runs only `if width_difference > 0 and row_images`. -/
def final_widths (canvas_width padding : ℕ) (row : List ℚ) (th : ℤ) : List ℤ :=
  let ws := adjusted_widths canvas_width padding row th
  let d := width_difference canvas_width padding row th
  if 0 < d ∧ row ≠ [] then distribute ws d.toNat else ws

/-- A CellPlan: the target width and height assigned to one image. -/
structure CellPlan where
  width : ℤ
  height : ℤ
deriving DecidableEq, Repr

/-- The cells of one row: each image of the row gets its final adjusted
width and the shared target row height (lines 144-147). -/
def row_cells (canvas_width padding : ℕ) (row : List ℚ) (th : ℤ) : List CellPlan :=
  (final_widths canvas_width padding row th).map fun w => ⟨w, th⟩

/-- The whole plan (lines 127-148): one cell list per row index
`0, ..., num_rows - 1`, slicing the aspect-ratio list with the global
column count and using the shared target height. -/
def plan_rows (ars : List ℚ) (canvas_width canvas_height padding num_rows : ℕ) :
    List (List CellPlan) :=
  (List.range num_rows).map fun i =>
    row_cells canvas_width padding
      (row_images ars (num_cols ars.length num_rows) i)
      (target_height canvas_height num_rows padding)

/-! ## Face-aware cropper (`crop_image`, lines 39-74)

An image is its pixel dimensions `(w, h) : ℕ × ℕ`; `face_recognition`
returns boxes as `(top, right, bottom, left)` tuples, of which indices
1 and 3 are the horizontal edges and 0 and 2 the vertical ones. -/

/-- A detected face bounding box, in `face_recognition`'s
`(top, right, bottom, left)` order. -/
structure FaceLoc where
  top : ℤ
  right : ℤ
  bottom : ℤ
  left : ℤ
deriving DecidableEq, Repr

/-- Line 46: `new_width = int(target_aspect_ratio * height)`. -/
def new_width (h tw th : ℕ) : ℤ := pyInt ((tw : ℚ) / (th : ℚ) * (h : ℚ))

/-- Line 47: `left = (width - new_width) // 2`, the symmetric window's left edge. -/
def sym_left (w : ℕ) (nw : ℤ) : ℤ := pyFloorDiv ((w : ℤ) - nw) 2

/-- Line 51: `face_center = (face_locations[0][1] + face_locations[0][3]) // 2`,
the floor-midpoint of the box's right and left edges. -/
def face_center_x (f : FaceLoc) : ℤ := pyFloorDiv (f.right + f.left) 2

/-- Line 60: `new_height = int(width / target_aspect_ratio)`. -/
def new_height (w tw th : ℕ) : ℤ := pyInt ((w : ℚ) / ((tw : ℚ) / (th : ℚ)))

/-- Line 61: `top = (height - new_height) // 2`, the symmetric window's top edge. -/
def sym_top (h : ℕ) (nh : ℤ) : ℤ := pyFloorDiv ((h : ℤ) - nh) 2

/-- Line 65: `face_center = (face_locations[0][0] + face_locations[0][2]) // 2`,
the floor-midpoint of the box's top and bottom edges. -/
def face_center_y (f : FaceLoc) : ℤ := pyFloorDiv (f.top + f.bottom) 2

/-- Lines 44-72: the crop box `(left, upper, right, lower)` passed to
`image.crop`, or `none` when the aspect ratios already match and no
crop is performed.  `face` is the first detected face box, if any. -/
def crop_box (w h tw th : ℕ) (face : Option FaceLoc) : Option (ℤ × ℤ × ℤ × ℤ) :=
  if (tw : ℚ) / (th : ℚ) < (w : ℚ) / (h : ℚ) then
    let nw := new_width h tw th
    let left := sym_left w nw
    let right := left + nw
    match face with
    | some f =>
      if face_center_x f < left then some (0, 0, nw, (h : ℤ))
      else if right < face_center_x f then some ((w : ℤ) - nw, 0, (w : ℤ), (h : ℤ))
      else some (left, 0, right, (h : ℤ))
    | none => some (left, 0, right, (h : ℤ))
  else if (w : ℚ) / (h : ℚ) < (tw : ℚ) / (th : ℚ) then
    let nh := new_height w tw th
    let top := sym_top h nh
    let bottom := top + nh
    match face with
    | some f =>
      if face_center_y f < top then some (0, 0, (w : ℤ), nh)
      else if bottom < face_center_y f then some (0, (h : ℤ) - nh, (w : ℤ), (h : ℤ))
      else some (0, top, (w : ℤ), bottom)
    | none => some (0, top, (w : ℤ), bottom)
  else none

/-- Dimensions of `image.crop(box)`: `(right - left, lower - upper)`;
with no box the image keeps its own dimensions. -/
def crop_dims (w h : ℕ) (box : Option (ℤ × ℤ × ℤ × ℤ)) : ℤ × ℤ :=
  match box with
  | none => ((w : ℤ), (h : ℤ))
  | some (l, u, r, b) => (r - l, b - u)

/-- Line 36/74: `image.resize((target_width, target_height), Image.LANCZOS)`
returns an image of exactly the requested dimensions (for positive targets). -/
def resize_dims (tw th : ℕ) (_ : ℤ × ℤ) : ℕ × ℕ := (tw, th)

/-- Lines 39-74: the pixel dimensions of `crop_image`'s result: crop to
the selected box (if any), then resize to the target dimensions. -/
def crop_image (w h tw th : ℕ) (face : Option FaceLoc) : ℕ × ℕ :=
  resize_dims tw th (crop_dims w h (crop_box w h tw th face))

/-! ## Color parser (`parse_rgb_color`, lines 77-90)

Line 13 imports only `ArgumentParser` and `ArgumentTypeError` from
`argparse`; the module name `argparse` itself is never bound.  Line 90
(`raise argparse.ArgumentTypeError(...)`) therefore raises
`NameError: name 'argparse' is not defined` whenever the `except`
branch is reached, instead of the intended `ArgumentTypeError`. -/

/-- The exception escaping `parse_rgb_color`: the `NameError` the code
actually raises, or the `ArgumentTypeError` line 90 intends to raise. -/
inductive PyExn where
  | nameError (missing : String)
  | argumentTypeError (msg : String)
deriving DecidableEq, Repr

/-- Value of one hexadecimal digit, as accepted by Python's
`int(s, 16)` for plain digit characters. -/
def hexVal (c : Char) : Option ℕ :=
  if '0' ≤ c ∧ c ≤ '9' then some (c.toNat - '0'.toNat)
  else if 'a' ≤ c ∧ c ≤ 'f' then some (c.toNat - 'a'.toNat + 10)
  else if 'A' ≤ c ∧ c ≤ 'F' then some (c.toNat - 'A'.toNat + 10)
  else none

/-- `int(c₁ ++ c₂, 16)` for two digit characters. -/
def hexByte (c₁ c₂ : Char) : Option ℕ :=
  match hexVal c₁, hexVal c₂ with
  | some v₁, some v₂ => some (16 * v₁ + v₂)
  | _, _ => none

/-- Lines 77-90.  `color_string.lstrip('#')` removes every leading `#`;
a 6-character remainder is read as three byte pairs, a 3-character one
doubles each digit.  Any other length or any non-digit character takes
the `except ValueError` path, whose `raise argparse.ArgumentTypeError`
itself fails with a `NameError` because `argparse` is not a bound name
(only `ArgumentTypeError` was imported from it, line 13). -/
def parse_rgb_color (s : String) : Except PyExn (ℕ × ℕ × ℕ) :=
  match s.toList.dropWhile (fun c => c = '#') with
  | [a, b, c, d, e, f] =>
    match hexByte a b, hexByte c d, hexByte e f with
    | some r, some g, some bl => .ok (r, g, bl)
    | _, _, _ => .error (.nameError "argparse")
  | [a, b, c] =>
    match hexByte a a, hexByte b b, hexByte c c with
    | some r, some g, some bl => .ok (r, g, bl)
    | _, _, _ => .error (.nameError "argparse")
  | _ => .error (.nameError "argparse")

/-! ## Row-count heuristic (line 118)

`num_rows = max(1, round((canvas_height / canvas_width) * (num_images / avg_aspect_ratio) ** 0.5))`.
Python's `**` binds tighter than `*`, so the square root applies to
`num_images / avg_aspect_ratio` only, and the quotient
`canvas_height / canvas_width` multiplies the root. -/

/-- Python `round()` on an exact real value: round half to even. -/
noncomputable def pyRound (x : ℝ) : ℤ :=
  if Even ⌊x⌋ then ⌈x - 1 / 2⌉ else ⌊x + 1 / 2⌋

/-- Line 115: `avg_aspect_ratio = sum(aspect_ratios) / num_images`. -/
noncomputable def avg_aspect_ratio (ars : List ℝ) : ℝ := ars.sum / ars.length

/-- Line 118, as the code computes it:
`max(1, round((ch / cw) * sqrt(len(ars) / avg_aspect_ratio)))`. -/
noncomputable def num_rows_auto (canvas_width canvas_height : ℕ) (ars : List ℝ) : ℤ :=
  max 1 (pyRound ((canvas_height : ℝ) / (canvas_width : ℝ) *
    Real.sqrt ((ars.length : ℝ) / avg_aspect_ratio ars)))

/-- Modelled from the spec's row-count sentence: the square root taken of
the entire product `(canvas.height/canvas.width) × (num_images / mean_aspect_ratio)`. -/
noncomputable def num_rows_spec_formula (canvas_width canvas_height : ℕ) (ars : List ℝ) : ℤ :=
  max 1 (pyRound (Real.sqrt ((canvas_height : ℝ) / (canvas_width : ℝ) *
    ((ars.length : ℝ) / avg_aspect_ratio ars))))

/-- Modelled from the spec as amended: the square root applies only to
`num_images / mean_aspect_ratio`, and the canvas ratio multiplies it. -/
noncomputable def num_rows_amended_formula (canvas_width canvas_height : ℕ) (ars : List ℝ) : ℤ :=
  max 1 (pyRound ((canvas_height : ℝ) / (canvas_width : ℝ) *
    Real.sqrt ((ars.length : ℝ) / avg_aspect_ratio ars)))

/-! ## Helper lemmas -/

theorem pyInt_of_nonneg {q : ℚ} (h : 0 ≤ q) : pyInt q = ⌊q⌋ := by
  unfold pyInt
  rw [if_neg (not_lt.mpr h)]

theorem pyInt_cast_le {q : ℚ} (h : 0 ≤ q) : (pyInt q : ℚ) ≤ q := by
  rw [pyInt_of_nonneg h]
  exact Int.floor_le q

theorem pyInt_nonneg {q : ℚ} (h : 0 ≤ q) : 0 ≤ pyInt q := by
  rw [pyInt_of_nonneg h]
  exact Int.floor_nonneg.mpr h

theorem pyInt_nonpos {q : ℚ} (h : q ≤ 0) : pyInt q ≤ 0 := by
  unfold pyInt
  split
  · exact Int.ceil_le.mpr (by exact_mod_cast h)
  · calc ⌊q⌋ ≤ ⌊(0 : ℚ)⌋ := Int.floor_le_floor h
    _ = 0 := Int.floor_zero

theorem distribute_length (ws : List ℤ) (d : ℕ) :
    (distribute ws d).length = ws.length := by
  induction d with
  | zero => rfl
  | succ d ih => simp only [distribute, List.length_set, ih]

theorem distribute_sum (ws : List ℤ) (hne : ws ≠ []) (d : ℕ) :
    (distribute ws d).sum = ws.sum + d := by
  induction d with
  | zero => simp [distribute]
  | succ d ih =>
    have hlen : (distribute ws d).length = ws.length := distribute_length ws d
    have hpos : 0 < (distribute ws d).length := by
      rw [hlen]
      exact List.length_pos.mpr hne
    have hk : d % (distribute ws d).length < (distribute ws d).length :=
      Nat.mod_lt _ hpos
    rw [distribute, List.sum_set', dif_pos hk]
    have hgd : (distribute ws d).getD (d % (distribute ws d).length) 0 =
        (distribute ws d)[d % (distribute ws d).length] := by
      rw [List.getD_eq_getElem?_getD, List.getElem?_eq_getElem hk]
      rfl
    rw [hgd, ih]
    push_cast
    ring

theorem total_width_eq (row : List ℚ) (th : ℤ) :
    total_width row th = row.sum * (th : ℚ) := by
  unfold total_width
  rw [List.sum_map_mul_right, List.map_id']

/-- Core invariant behind the remainder-distribution step: provided the
row paddings fit in the canvas width and the aspect ratios are positive
(as width/height of real images), the truncated adjusted widths never
overshoot the available width, so the remainder is nonnegative. -/
theorem width_difference_nonneg (canvas_width padding : ℕ) (row : List ℚ) (th : ℤ)
    (hpos : ∀ a ∈ row, 0 < a)
    (hpad : ((row.length + 1) * padding : ℤ) ≤ (canvas_width : ℤ)) :
    0 ≤ width_difference canvas_width padding row th := by
  unfold width_difference adjusted_widths
  have key : ((row.map fun a =>
      pyInt (a * (th : ℚ) * scale_factor canvas_width padding row th)).sum : ℤ) ≤
      (canvas_width : ℤ) - ((row.length : ℤ) + 1) * (padding : ℤ) := by
    by_cases ht : 0 < total_width row th
    · -- positive total natural width: the scale factor is nonnegative and
      -- each truncated term is a floor of a nonnegative term
      have hrow : row ≠ [] := by
        intro hr
        rw [hr] at ht
        simp [total_width] at ht
      have hsumpos : 0 < row.sum := List.sum_pos row hpos hrow
      have hthpos : (0 : ℚ) < (th : ℚ) := by
        by_contra hh
        push_neg at hh
        rw [total_width_eq] at ht
        nlinarith [mul_nonpos_of_nonneg_of_nonpos hsumpos.le hh]
      have havailQ : (0 : ℚ) ≤ (canvas_width : ℚ) - ((row.length : ℚ) + 1) * (padding : ℚ) := by
        have hc : ((((row.length : ℤ) + 1) * (padding : ℤ) : ℤ) : ℚ) ≤ ((canvas_width : ℤ) : ℚ) :=
          Int.cast_le.mpr hpad
        push_cast at hc
        linarith
      have hsf : 0 ≤ scale_factor canvas_width padding row th := by
        unfold scale_factor
        rw [if_pos ht]
        exact div_nonneg (by linarith [havailQ]) ht.le
      have hterm : ∀ a ∈ row, (0 : ℚ) ≤ a * (th : ℚ) * scale_factor canvas_width padding row th :=
        fun a ha => mul_nonneg (mul_nonneg (hpos a ha).le hthpos.le) hsf
      have h2 : (row.map fun a => a * (th : ℚ) * scale_factor canvas_width padding row th).sum =
          (canvas_width : ℚ) - ((row.length : ℚ) + 1) * (padding : ℚ) := by
        rw [List.sum_map_mul_right, ← total_width]
        unfold scale_factor
        rw [if_pos ht, mul_comm, div_mul_cancel₀ _ (ne_of_gt ht)]
      have h1 : ((row.map fun a =>
          pyInt (a * (th : ℚ) * scale_factor canvas_width padding row th)).sum : ℚ) ≤
          (canvas_width : ℚ) - ((row.length : ℚ) + 1) * (padding : ℚ) := by
        rw [Int.cast_list_sum, List.map_map]
        exact le_trans (List.sum_le_sum fun a ha => pyInt_cast_le (hterm a ha)) (le_of_eq h2)
      exact_mod_cast h1
    · -- nonpositive total width: the scale factor defaults to 1 and every
      -- truncated term is nonpositive
      have hterm : ∀ a ∈ row,
          pyInt (a * (th : ℚ) * scale_factor canvas_width padding row th) ≤ 0 := by
        intro a ha
        have hth : (th : ℚ) ≤ 0 := by
          by_contra hh
          push_neg at hh
          have hsumpos : 0 < row.sum := List.sum_pos row hpos (List.ne_nil_of_mem ha)
          exact ht (total_width_eq row th ▸ mul_pos hsumpos hh)
        unfold scale_factor
        rw [if_neg ht, mul_one]
        exact pyInt_nonpos (mul_nonpos_of_nonneg_of_nonpos (hpos a ha).le hth)
      have hsle : (row.map fun a =>
          pyInt (a * (th : ℚ) * scale_factor canvas_width padding row th)).sum ≤ 0 := by
        have h := List.sum_le_sum (l := row)
          (f := fun a => pyInt (a * (th : ℚ) * scale_factor canvas_width padding row th))
          (g := fun _ => (0 : ℤ)) hterm
        simpa using h
      linarith
  linarith [key]

/-! ## Concrete evaluation lemmas for the planner counterexample
(aspect ratios `[1, 2]`, canvas 10×201, padding 100, one forced row) -/

theorem cex_row_images : row_images [1, 2] (num_cols 2 1) 0 = [1, 2] := rfl

theorem cex_target_height : target_height 201 1 100 = 1 := by decide

theorem cex_scale_factor : scale_factor 10 100 [1, 2] 1 = -290 / 3 := by
  unfold scale_factor total_width
  norm_num

theorem cex_adjusted_widths : adjusted_widths 10 100 [1, 2] 1 = [-96, -193] := by
  unfold adjusted_widths
  rw [cex_scale_factor]
  have h1 : pyInt (-(290 / 3 : ℚ)) = -96 := by
    unfold pyInt
    rw [if_pos (by norm_num), Int.ceil_eq_iff]
    constructor <;> norm_num
  have h2 : pyInt (-(580 / 3 : ℚ)) = -193 := by
    unfold pyInt
    rw [if_pos (by norm_num), Int.ceil_eq_iff]
    constructor <;> norm_num
  norm_num [h1, h2]

theorem cex_width_difference : width_difference 10 100 [1, 2] 1 = -1 := by
  unfold width_difference
  rw [cex_adjusted_widths]
  norm_num

theorem cex_final_widths : final_widths 10 100 [1, 2] 1 = [-96, -193] := by
  unfold final_widths
  rw [cex_width_difference, cex_adjusted_widths]
  norm_num

/-! ## Claim theorems: layout planner -/

/-- C2 (counterexample): the exact-fill invariant fails as stated for
arbitrary padding ≥ 0.  With aspect ratios `[1, 2]`, canvas width 10,
canvas height 201, padding 100 and one forced row, the target height is
1, the scale factor is negative, Python's `int()` truncates the negative
adjusted widths toward zero (up, not down), the remainder is `-1` and is
left undistributed: the row's widths sum plus `(count+1)×padding` is 11,
not the canvas width 10. -/
theorem C2_counterexample :
    (final_widths 10 100 (row_images [1, 2] (num_cols 2 1) 0) (target_height 201 1 100)).sum
      + (((row_images [1, 2] (num_cols 2 1) 0).length : ℤ) + 1) * 100 ≠ (10 : ℤ) := by
  rw [cex_row_images, cex_target_height, cex_final_widths]
  norm_num

/-- C2 (amended): for every non-empty row of positive aspect ratios and
padding with `(len(row)+1)×padding ≤ canvas.width`, the final adjusted
cell widths sum with the paddings to exactly the canvas width. -/
theorem C2_exact_fill (canvas_width padding : ℕ) (row : List ℚ) (th : ℤ)
    (hne : row ≠ []) (hpos : ∀ a ∈ row, 0 < a)
    (hpad : ((row.length + 1) * padding : ℤ) ≤ (canvas_width : ℤ)) :
    (final_widths canvas_width padding row th).sum
      + ((row.length : ℤ) + 1) * (padding : ℤ) = (canvas_width : ℤ) := by
  have hd := width_difference_nonneg canvas_width padding row th hpos hpad
  have hwdef : width_difference canvas_width padding row th =
      (canvas_width : ℤ) - (adjusted_widths canvas_width padding row th).sum
        - ((row.length : ℤ) + 1) * (padding : ℤ) := rfl
  unfold final_widths
  by_cases h0 : 0 < width_difference canvas_width padding row th
  · rw [if_pos ⟨h0, hne⟩]
    have hws : adjusted_widths canvas_width padding row th ≠ [] := by
      unfold adjusted_widths
      simpa using hne
    rw [distribute_sum _ hws]
    have htn : ((width_difference canvas_width padding row th).toNat : ℤ) =
        width_difference canvas_width padding row th := Int.toNat_of_nonneg hd
    rw [htn, hwdef]
    ring
  · rw [if_neg (fun hc => h0 hc.1)]
    have hz : width_difference canvas_width padding row th = 0 := le_antisymm (not_lt.mp h0) hd
    rw [hwdef] at hz
    linarith

/-- C2 (witness): a concrete instance of the amended exact-fill
invariant: aspect ratios `[3/2, 1]`, canvas width 1200, padding 0,
target height 300. -/
theorem C2_exact_fill_witness :
    (final_widths 1200 0 [3 / 2, 1] 300).sum
      + ((([3 / 2, 1] : List ℚ).length : ℤ) + 1) * ((0 : ℕ) : ℤ) = ((1200 : ℕ) : ℤ) :=
  C2_exact_fill 1200 0 [3 / 2, 1] 300 (by simp) (by norm_num) (by norm_num)

/-- C3 (counterexample): the remainder can be negative.  Same input as
the C2 counterexample: the remainder `canvas.width - sum(adjusted) -
(count+1)×padding` evaluates to `-1 < 0`, because `int()` truncation of
a negative product rounds up, not down. -/
theorem C3_counterexample :
    width_difference 10 100 (row_images [1, 2] (num_cols 2 1) 0) (target_height 201 1 100) < 0 := by
  rw [cex_row_images, cex_target_height, cex_width_difference]
  norm_num

/-- C3 (amended): provided `(count+1)×padding ≤ canvas.width` (and
positive aspect ratios), the remainder is never negative; when positive
it is distributed cyclically, `+1` pixel to `adjusted_width[i % len]`
for `i in range(remainder)`, so floored widths `[10, 10, 10]` with
remainder 3 become `[11, 11, 11]`, summing to 33. -/
theorem C3_remainder_distribution (canvas_width padding : ℕ) (row : List ℚ) (th : ℤ)
    (hpos : ∀ a ∈ row, 0 < a)
    (hpad : ((row.length + 1) * padding : ℤ) ≤ (canvas_width : ℤ)) :
    0 ≤ width_difference canvas_width padding row th ∧
    distribute [10, 10, 10] 3 = [11, 11, 11] ∧
    ((distribute [10, 10, 10] 3).sum : ℤ) = 33 :=
  ⟨width_difference_nonneg canvas_width padding row th hpos hpad, by decide, by decide⟩

/-- C3 (witness): the amended remainder statement at aspect ratios
`[3/2, 1]`, canvas width 1200, padding 10, target height 280. -/
theorem C3_remainder_distribution_witness :
    0 ≤ width_difference 1200 10 [3 / 2, 1] 280 ∧
    distribute [10, 10, 10] 3 = [11, 11, 11] ∧
    ((distribute [10, 10, 10] 3).sum : ℤ) = 33 :=
  C3_remainder_distribution 1200 10 [3 / 2, 1] 280 (by norm_num) (by norm_num)

/-- C6: the target row height `(canvas_height - (rows+1)*padding) // rows`
(floor division) is shared by every cell of every row of the plan, and
the total occupied height - the leading padding plus, per row, the
target height and one padding - never exceeds the canvas height. -/
theorem C6_row_height (ars : List ℚ) (canvas_width canvas_height padding num_rows : ℕ)
    (hr : 1 ≤ num_rows) :
    (∀ cells ∈ plan_rows ars canvas_width canvas_height padding num_rows,
      ∀ c ∈ cells, c.height = target_height canvas_height num_rows padding) ∧
    (padding : ℤ) + (num_rows : ℤ) * (target_height canvas_height num_rows padding + (padding : ℤ))
      ≤ (canvas_height : ℤ) := by
  constructor
  · intro cells hcells c hc
    unfold plan_rows at hcells
    rw [List.mem_map] at hcells
    obtain ⟨i, _, hci⟩ := hcells
    rw [← hci] at hc
    unfold row_cells at hc
    rw [List.mem_map] at hc
    obtain ⟨wdt, _, hcw⟩ := hc
    rw [← hcw]
  · have hrz : (0 : ℤ) < (num_rows : ℤ) := by exact_mod_cast hr
    have hfd : target_height canvas_height num_rows padding =
        ((canvas_height : ℤ) - ((num_rows : ℤ) + 1) * (padding : ℤ)) / (num_rows : ℤ) := by
      unfold target_height pyFloorDiv
      rw [Int.fdiv_eq_ediv _ (by positivity)]
    have hkey : (num_rows : ℤ) * (((canvas_height : ℤ) - ((num_rows : ℤ) + 1) * (padding : ℤ)) /
        (num_rows : ℤ)) ≤ (canvas_height : ℤ) - ((num_rows : ℤ) + 1) * (padding : ℤ) := by
      rw [mul_comm]
      exact Int.ediv_mul_le _ (ne_of_gt hrz)
    rw [hfd]
    have hp : (0 : ℤ) ≤ (padding : ℤ) := by positivity
    nlinarith [hkey]

/-- C6 (witness): four aspect ratios on a 1200×600 canvas with padding 0
and two rows. -/
theorem C6_row_height_witness :
    (∀ cells ∈ plan_rows [3 / 2, 1, 3 / 2, 1] 1200 600 0 2,
      ∀ c ∈ cells, c.height = target_height 600 2 0) ∧
    ((0 : ℕ) : ℤ) + ((2 : ℕ) : ℤ) * (target_height 600 2 0 + ((0 : ℕ) : ℤ))
      ≤ ((600 : ℕ) : ℤ) :=
  C6_row_height [3 / 2, 1, 3 / 2, 1] 1200 600 0 2 (by decide)

/-- C9: a row whose slice of the image sequence is empty is processed
without error: the scale factor defaults to 1 (the `else 1` branch of
line 131), the `width_difference`-distribution loop is skipped (its
guard requires a non-empty `row_images`, so no modulo by zero occurs),
and the row contributes no cells. -/
theorem C9_empty_row (ars : List ℚ) (cols rowIdx canvas_width padding : ℕ) (th : ℤ)
    (h : row_images ars cols rowIdx = []) :
    scale_factor canvas_width padding (row_images ars cols rowIdx) th = 1 ∧
    final_widths canvas_width padding (row_images ars cols rowIdx) th = [] ∧
    row_cells canvas_width padding (row_images ars cols rowIdx) th = [] := by
  rw [h]
  refine ⟨?_, ?_, ?_⟩
  · unfold scale_factor total_width
    simp
  · unfold final_widths
    rw [if_neg (fun hc => hc.2 rfl)]
    unfold adjusted_widths
    simp
  · unfold row_cells final_widths
    rw [if_neg (fun hc => hc.2 rfl)]
    unfold adjusted_widths
    simp

/-- C9 (witness): two images forced into five rows give one column and
an empty slice for row index 3. -/
theorem C9_empty_row_witness :
    scale_factor 1920 0 (row_images [1, 1] (num_cols 2 5) 3) 5 = 1 ∧
    final_widths 1920 0 (row_images [1, 1] (num_cols 2 5) 3) 5 = [] ∧
    row_cells 1920 0 (row_images [1, 1] (num_cols 2 5) 3) 5 = [] :=
  C9_empty_row [1, 1] (num_cols 2 5) 3 1920 0 5 (by decide)

/-! ## Helper lemmas for the cropper -/

theorem pyFloorDiv_two_nonneg {x : ℤ} (hx : 0 ≤ x) : 0 ≤ pyFloorDiv x 2 := by
  unfold pyFloorDiv
  exact Int.fdiv_nonneg hx (by norm_num)

theorem pyFloorDiv_two_le {x : ℤ} (hx : 0 ≤ x) : pyFloorDiv x 2 ≤ x := by
  unfold pyFloorDiv
  rw [Int.fdiv_eq_ediv _ (by norm_num)]
  exact Int.ediv_le_self _ hx

theorem pyFloorDiv_two_mono {a b : ℤ} (hab : a ≤ b) : pyFloorDiv a 2 ≤ pyFloorDiv b 2 := by
  unfold pyFloorDiv
  rw [Int.fdiv_eq_ediv _ (by norm_num), Int.fdiv_eq_ediv _ (by norm_num)]
  exact Int.ediv_le_ediv (by norm_num) hab

theorem pyFloorDiv_two_double (a : ℤ) : pyFloorDiv (2 * a) 2 = a := by
  unfold pyFloorDiv
  rw [Int.fdiv_eq_ediv _ (by norm_num)]
  exact Int.mul_ediv_cancel_left a (by norm_num)

theorem new_width_nonneg (h tw th : ℕ) : 0 ≤ new_width h tw th :=
  pyInt_nonneg (by positivity)

theorem new_width_le (w h tw th : ℕ) (hh : 0 < h)
    (hwide : (tw : ℚ) / (th : ℚ) < (w : ℚ) / (h : ℚ)) :
    new_width h tw th ≤ (w : ℤ) := by
  unfold new_width
  rw [pyInt_of_nonneg (by positivity)]
  have hhq : (0 : ℚ) < (h : ℚ) := by exact_mod_cast hh
  have harg : (tw : ℚ) / (th : ℚ) * (h : ℚ) ≤ (w : ℚ) := by
    calc (tw : ℚ) / (th : ℚ) * (h : ℚ) ≤ (w : ℚ) / (h : ℚ) * (h : ℚ) :=
      mul_le_mul_of_nonneg_right hwide.le hhq.le
    _ = (w : ℚ) := div_mul_cancel₀ _ (ne_of_gt hhq)
  calc ⌊(tw : ℚ) / (th : ℚ) * (h : ℚ)⌋ ≤ ⌊(w : ℚ)⌋ := Int.floor_le_floor harg
  _ = (w : ℤ) := Int.floor_natCast w

theorem new_height_nonneg (w tw th : ℕ) : 0 ≤ new_height w tw th :=
  pyInt_nonneg (by positivity)

theorem new_height_le (w h tw th : ℕ) (hh : 0 < h)
    (htall : (w : ℚ) / (h : ℚ) < (tw : ℚ) / (th : ℚ)) :
    new_height w tw th ≤ (h : ℤ) := by
  unfold new_height
  rw [pyInt_of_nonneg (by positivity)]
  have hhq : (0 : ℚ) < (h : ℚ) := by exact_mod_cast hh
  have htwpos : (0 : ℚ) < (tw : ℚ) / (th : ℚ) := lt_of_le_of_lt (by positivity) htall
  have harg : (w : ℚ) / ((tw : ℚ) / (th : ℚ)) ≤ (h : ℚ) := by
    rw [div_le_iff₀ htwpos]
    calc (w : ℚ) = (w : ℚ) / (h : ℚ) * (h : ℚ) := (div_mul_cancel₀ _ (ne_of_gt hhq)).symm
    _ ≤ (tw : ℚ) / (th : ℚ) * (h : ℚ) := mul_le_mul_of_nonneg_right htall.le hhq.le
    _ = (h : ℚ) * ((tw : ℚ) / (th : ℚ)) := by ring
  calc ⌊(w : ℚ) / ((tw : ℚ) / (th : ℚ))⌋ ≤ ⌊(h : ℚ)⌋ := Int.floor_le_floor harg
  _ = (h : ℤ) := Int.floor_natCast h

/-! ## Claim theorems: face-aware cropper -/

/-- C4: `crop_image` always produces pixel data of exactly the target
dimensions: every branch ends in `image.resize((target_width, target_height))`. -/
theorem C4_crop_dims (w h tw th : ℕ) (face : Option FaceLoc)
    (_htw : 0 < tw) (_hth : 0 < th) :
    crop_image w h tw th face = (tw, th) := rfl

/-- C4 (witness): a 1000×500 source cropped to 640×480. -/
theorem C4_crop_dims_witness : crop_image 1000 500 640 480 none = (640, 480) :=
  C4_crop_dims 1000 500 640 480 none (by norm_num) (by norm_num)

/-- C8: when the source aspect ratio equals the target aspect ratio no
crop window is computed and the image is directly resized to the
target dimensions. -/
theorem C8_equal_aspect (w h tw th : ℕ) (face : Option FaceLoc)
    (heq : (w : ℚ) / (h : ℚ) = (tw : ℚ) / (th : ℚ)) :
    crop_box w h tw th face = none ∧ crop_image w h tw th face = (tw, th) := by
  refine ⟨?_, rfl⟩
  unfold crop_box
  rw [if_neg (by rw [heq]; exact lt_irrefl _), if_neg (by rw [heq]; exact lt_irrefl _)]

/-- C8 (witness): an 800×400 image (aspect ratio 2.0) targeted at
1000×500 (aspect ratio 2.0) is resized with no crop. -/
theorem C8_equal_aspect_witness :
    crop_box 800 400 1000 500 none = none ∧ crop_image 800 400 1000 500 none = (1000, 500) :=
  C8_equal_aspect 800 400 1000 500 none (by norm_num)

/-- C5: snap-to-edge policy.  In the wider-than-target branch, with the
symmetric window `[left, left + new_width)` and the face midpoint
`(right + left) // 2`: a midpoint left of the window snaps the window to
the left edge, one right of it snaps to the right edge, and otherwise -
in particular whenever the face box lies entirely inside the symmetric
window - the symmetric window is kept; the same policy applies
vertically in the taller-than-target branch. -/
theorem C5_face_snap (w h tw th : ℕ) (f : FaceLoc) (_hh : 0 < h) (_hth : 0 < th) :
    ((tw : ℚ) / (th : ℚ) < (w : ℚ) / (h : ℚ) →
      (face_center_x f < sym_left w (new_width h tw th) →
        crop_box w h tw th (some f) = some (0, 0, new_width h tw th, (h : ℤ))) ∧
      (sym_left w (new_width h tw th) + new_width h tw th < face_center_x f →
        crop_box w h tw th (some f) =
          some ((w : ℤ) - new_width h tw th, 0, (w : ℤ), (h : ℤ))) ∧
      (sym_left w (new_width h tw th) ≤ face_center_x f →
        face_center_x f ≤ sym_left w (new_width h tw th) + new_width h tw th →
        crop_box w h tw th (some f) =
          some (sym_left w (new_width h tw th), 0,
            sym_left w (new_width h tw th) + new_width h tw th, (h : ℤ))) ∧
      (f.left ≤ f.right → sym_left w (new_width h tw th) ≤ f.left →
        f.right ≤ sym_left w (new_width h tw th) + new_width h tw th →
        crop_box w h tw th (some f) =
          some (sym_left w (new_width h tw th), 0,
            sym_left w (new_width h tw th) + new_width h tw th, (h : ℤ)))) ∧
    ((w : ℚ) / (h : ℚ) < (tw : ℚ) / (th : ℚ) →
      (face_center_y f < sym_top h (new_height w tw th) →
        crop_box w h tw th (some f) = some (0, 0, (w : ℤ), new_height w tw th)) ∧
      (sym_top h (new_height w tw th) + new_height w tw th < face_center_y f →
        crop_box w h tw th (some f) =
          some (0, (h : ℤ) - new_height w tw th, (w : ℤ), (h : ℤ))) ∧
      (sym_top h (new_height w tw th) ≤ face_center_y f →
        face_center_y f ≤ sym_top h (new_height w tw th) + new_height w tw th →
        crop_box w h tw th (some f) =
          some (0, sym_top h (new_height w tw th), (w : ℤ),
            sym_top h (new_height w tw th) + new_height w tw th))) := by
  constructor
  · intro hlt
    have hnw0 : 0 ≤ new_width h tw th := new_width_nonneg h tw th
    refine ⟨?_, ?_, ?_, ?_⟩
    · intro hc
      simp only [crop_box]
      rw [if_pos hlt, if_pos hc]
    · intro hc
      simp only [crop_box]
      rw [if_pos hlt, if_neg (by omega), if_pos hc]
    · intro hc1 hc2
      simp only [crop_box]
      rw [if_pos hlt, if_neg (by omega), if_neg (by omega)]
    · intro hf hc1 hc2
      have hcx1 : sym_left w (new_width h tw th) ≤ face_center_x f := by
        have h2 : 2 * sym_left w (new_width h tw th) ≤ f.right + f.left := by omega
        have := pyFloorDiv_two_mono h2
        rw [pyFloorDiv_two_double] at this
        exact this
      have hcx2 : face_center_x f ≤
          sym_left w (new_width h tw th) + new_width h tw th := by
        have h2 : f.right + f.left ≤
            2 * (sym_left w (new_width h tw th) + new_width h tw th) := by omega
        have := pyFloorDiv_two_mono h2
        rw [pyFloorDiv_two_double] at this
        exact this
      simp only [crop_box]
      rw [if_pos hlt, if_neg (by omega), if_neg (by omega)]
  · intro hlt
    have hnh0 : 0 ≤ new_height w tw th := new_height_nonneg w tw th
    have hasym : ¬ (tw : ℚ) / (th : ℚ) < (w : ℚ) / (h : ℚ) := lt_asymm hlt
    refine ⟨?_, ?_, ?_⟩
    · intro hc
      simp only [crop_box]
      rw [if_neg hasym, if_pos hlt, if_pos hc]
    · intro hc
      simp only [crop_box]
      rw [if_neg hasym, if_pos hlt, if_neg (by omega), if_pos hc]
    · intro hc1 hc2
      simp only [crop_box]
      rw [if_neg hasym, if_pos hlt, if_neg (by omega), if_neg (by omega)]

/-- C5 (witness): a 1000×500 source targeted at 500×500 with a face box
`(top 0, right 100, bottom 50, left 0)`: the branch hypotheses of the
snap policy are discharged at concrete values. -/
theorem C5_face_snap_witness :
    ((500 : ℚ) / (500 : ℚ) < (1000 : ℚ) / (500 : ℚ) →
      (face_center_x ⟨0, 100, 50, 0⟩ < sym_left 1000 (new_width 500 500 500) →
        crop_box 1000 500 500 500 (some ⟨0, 100, 50, 0⟩) =
          some (0, 0, new_width 500 500 500, (500 : ℤ))) ∧
      (sym_left 1000 (new_width 500 500 500) + new_width 500 500 500 <
          face_center_x ⟨0, 100, 50, 0⟩ →
        crop_box 1000 500 500 500 (some ⟨0, 100, 50, 0⟩) =
          some ((1000 : ℤ) - new_width 500 500 500, 0, (1000 : ℤ), (500 : ℤ))) ∧
      (sym_left 1000 (new_width 500 500 500) ≤ face_center_x ⟨0, 100, 50, 0⟩ →
        face_center_x ⟨0, 100, 50, 0⟩ ≤
          sym_left 1000 (new_width 500 500 500) + new_width 500 500 500 →
        crop_box 1000 500 500 500 (some ⟨0, 100, 50, 0⟩) =
          some (sym_left 1000 (new_width 500 500 500), 0,
            sym_left 1000 (new_width 500 500 500) + new_width 500 500 500, (500 : ℤ))) ∧
      ((⟨0, 100, 50, 0⟩ : FaceLoc).left ≤ (⟨0, 100, 50, 0⟩ : FaceLoc).right →
        sym_left 1000 (new_width 500 500 500) ≤ (⟨0, 100, 50, 0⟩ : FaceLoc).left →
        (⟨0, 100, 50, 0⟩ : FaceLoc).right ≤
          sym_left 1000 (new_width 500 500 500) + new_width 500 500 500 →
        crop_box 1000 500 500 500 (some ⟨0, 100, 50, 0⟩) =
          some (sym_left 1000 (new_width 500 500 500), 0,
            sym_left 1000 (new_width 500 500 500) + new_width 500 500 500, (500 : ℤ)))) ∧
    ((1000 : ℚ) / (500 : ℚ) < (500 : ℚ) / (500 : ℚ) →
      (face_center_y ⟨0, 100, 50, 0⟩ < sym_top 500 (new_height 1000 500 500) →
        crop_box 1000 500 500 500 (some ⟨0, 100, 50, 0⟩) =
          some (0, 0, (1000 : ℤ), new_height 1000 500 500)) ∧
      (sym_top 500 (new_height 1000 500 500) + new_height 1000 500 500 <
          face_center_y ⟨0, 100, 50, 0⟩ →
        crop_box 1000 500 500 500 (some ⟨0, 100, 50, 0⟩) =
          some (0, (500 : ℤ) - new_height 1000 500 500, (1000 : ℤ), (500 : ℤ))) ∧
      (sym_top 500 (new_height 1000 500 500) ≤ face_center_y ⟨0, 100, 50, 0⟩ →
        face_center_y ⟨0, 100, 50, 0⟩ ≤
          sym_top 500 (new_height 1000 500 500) + new_height 1000 500 500 →
        crop_box 1000 500 500 500 (some ⟨0, 100, 50, 0⟩) =
          some (0, sym_top 500 (new_height 1000 500 500), (1000 : ℤ),
            sym_top 500 (new_height 1000 500 500) + new_height 1000 500 500))) :=
  C5_face_snap 1000 500 500 500 ⟨0, 100, 50, 0⟩ (by norm_num) (by norm_num)

/-- C10: in the wider-than-target branch every possible crop window
(snap left, snap right, or symmetric) satisfies `0 ≤ left`,
`right ≤ width` and `right - left = new_width`; symmetrically in the
taller-than-target branch `0 ≤ top`, `bottom ≤ height` and
`bottom - top = new_height`, wherever the face box lies. -/
theorem C10_window_in_bounds (w h tw th : ℕ) (face : Option FaceLoc)
    (hh : 0 < h) (_hth : 0 < th) :
    ((tw : ℚ) / (th : ℚ) < (w : ℚ) / (h : ℚ) →
      ∀ l u r b : ℤ, crop_box w h tw th face = some (l, u, r, b) →
        0 ≤ l ∧ r ≤ (w : ℤ) ∧ r - l = new_width h tw th ∧ u = 0 ∧ b = (h : ℤ)) ∧
    ((w : ℚ) / (h : ℚ) < (tw : ℚ) / (th : ℚ) →
      ∀ l u r b : ℤ, crop_box w h tw th face = some (l, u, r, b) →
        0 ≤ u ∧ b ≤ (h : ℤ) ∧ b - u = new_height w tw th ∧ l = 0 ∧ r = (w : ℤ)) := by
  constructor
  · intro hlt l u r b hbox
    have hnw0 : 0 ≤ new_width h tw th := new_width_nonneg h tw th
    have hnww : new_width h tw th ≤ (w : ℤ) := new_width_le w h tw th hh hlt
    have hL0 : 0 ≤ sym_left w (new_width h tw th) :=
      pyFloorDiv_two_nonneg (by omega)
    have hLw : sym_left w (new_width h tw th) + new_width h tw th ≤ (w : ℤ) := by
      have := pyFloorDiv_two_le (x := (w : ℤ) - new_width h tw th) (by omega)
      unfold sym_left
      omega
    rcases face with _ | f
    · simp only [crop_box] at hbox
      rw [if_pos hlt] at hbox
      simp only [Option.some.injEq, Prod.mk.injEq] at hbox
      obtain ⟨rfl, rfl, rfl, rfl⟩ := hbox
      refine ⟨hL0, hLw, by ring, rfl, rfl⟩
    · simp only [crop_box] at hbox
      rw [if_pos hlt] at hbox
      split_ifs at hbox with h1 h2 <;>
        simp only [Option.some.injEq, Prod.mk.injEq] at hbox <;>
        obtain ⟨rfl, rfl, rfl, rfl⟩ := hbox
      · exact ⟨le_refl 0, hnww, by ring, rfl, rfl⟩
      · exact ⟨by omega, le_refl _, by ring, rfl, rfl⟩
      · exact ⟨hL0, hLw, by ring, rfl, rfl⟩
  · intro hlt l u r b hbox
    have hasym : ¬ (tw : ℚ) / (th : ℚ) < (w : ℚ) / (h : ℚ) := lt_asymm hlt
    have hnh0 : 0 ≤ new_height w tw th := new_height_nonneg w tw th
    have hnhh : new_height w tw th ≤ (h : ℤ) := new_height_le w h tw th hh hlt
    have hT0 : 0 ≤ sym_top h (new_height w tw th) :=
      pyFloorDiv_two_nonneg (by omega)
    have hTh : sym_top h (new_height w tw th) + new_height w tw th ≤ (h : ℤ) := by
      have := pyFloorDiv_two_le (x := (h : ℤ) - new_height w tw th) (by omega)
      unfold sym_top
      omega
    rcases face with _ | f
    · simp only [crop_box] at hbox
      rw [if_neg hasym, if_pos hlt] at hbox
      simp only [Option.some.injEq, Prod.mk.injEq] at hbox
      obtain ⟨rfl, rfl, rfl, rfl⟩ := hbox
      refine ⟨hT0, hTh, by ring, rfl, rfl⟩
    · simp only [crop_box] at hbox
      rw [if_neg hasym, if_pos hlt] at hbox
      split_ifs at hbox with h1 h2 <;>
        simp only [Option.some.injEq, Prod.mk.injEq] at hbox <;>
        obtain ⟨rfl, rfl, rfl, rfl⟩ := hbox
      · exact ⟨le_refl 0, hnhh, by ring, rfl, rfl⟩
      · exact ⟨by omega, le_refl _, by ring, rfl, rfl⟩
      · exact ⟨hT0, hTh, by ring, rfl, rfl⟩

/-- C10 (witness): the in-bounds window property at a concrete wider
1000×500 source targeted at 500×500 with a face box present. -/
theorem C10_window_in_bounds_witness :
    ((500 : ℚ) / (500 : ℚ) < (1000 : ℚ) / (500 : ℚ) →
      ∀ l u r b : ℤ, crop_box 1000 500 500 500 (some ⟨0, 100, 50, 0⟩) = some (l, u, r, b) →
        0 ≤ l ∧ r ≤ (1000 : ℤ) ∧ r - l = new_width 500 500 500 ∧ u = 0 ∧ b = (500 : ℤ)) ∧
    ((1000 : ℚ) / (500 : ℚ) < (500 : ℚ) / (500 : ℚ) →
      ∀ l u r b : ℤ, crop_box 1000 500 500 500 (some ⟨0, 100, 50, 0⟩) = some (l, u, r, b) →
        0 ≤ u ∧ b ≤ (500 : ℤ) ∧ b - u = new_height 1000 500 500 ∧ l = 0 ∧ r = (1000 : ℤ)) :=
  C10_window_in_bounds 1000 500 500 500 (some ⟨0, 100, 50, 0⟩) (by norm_num) (by norm_num)

/-! ## Claim theorems: color parser and row-count heuristic -/

/-- C7: the code behavior of `parse_rgb_color`.  The happy path parses
"#F00" to (255, 0, 0) as the spec says, but every failure path raises
`NameError` ("argparse" is not a bound name at line 90, only
`ArgumentTypeError` was imported from it): the intended user-facing
`ArgumentTypeError` naming the two accepted formats is unreachable, so
"ZZZZZZ" crashes with a `NameError` traceback instead. -/
theorem C7_color_parser_behavior :
    parse_rgb_color "#F00" = .ok (255, 0, 0) ∧
    parse_rgb_color "ZZZZZZ" = .error (.nameError "argparse") ∧
    ∀ s msg, parse_rgb_color s ≠ .error (.argumentTypeError msg) := by
  refine ⟨rfl, rfl, ?_⟩
  intro s msg
  unfold parse_rgb_color
  split
  · split <;> simp
  · split <;> simp
  · simp

/-- C1 (counterexample): the row-count formula of the code is not the
spec's.  Line 118 computes `(ch/cw) * sqrt(N / avg)` because `** 0.5`
binds tighter than `*`; the spec's formula takes the square root of the
whole product.  For 16 square images on a 1920×1080 canvas the code
yields `max(1, round(0.5625 * 4)) = 2` while the spec's formula yields
`max(1, round(sqrt(9))) = 3`. -/
theorem C1_counterexample :
    num_rows_auto 1920 1080 (List.replicate 16 (1 : ℝ)) = 2 ∧
    num_rows_spec_formula 1920 1080 (List.replicate 16 (1 : ℝ)) = 3 := by
  have havg : avg_aspect_ratio (List.replicate 16 (1 : ℝ)) = 1 := by
    unfold avg_aspect_ratio
    rw [List.sum_replicate, List.length_replicate, nsmul_eq_mul]
    norm_num
  have hlen : (((List.replicate 16 (1 : ℝ)).length : ℕ) : ℝ) = 16 := by
    rw [List.length_replicate]
    norm_num
  constructor
  · unfold num_rows_auto
    rw [havg, hlen]
    have hs : Real.sqrt ((16 : ℝ) / 1) = 4 := by
      have h : ((16 : ℝ) / 1) = (4 : ℝ) ^ 2 := by norm_num
      rw [h, Real.sqrt_sq (by norm_num : (0 : ℝ) ≤ 4)]
    rw [hs]
    have harg : ((1080 : ℕ) : ℝ) / ((1920 : ℕ) : ℝ) * 4 = 9 / 4 := by norm_num
    rw [harg]
    have hpr : pyRound ((9 : ℝ) / 4) = 2 := by
      unfold pyRound
      have hf : ⌊(9 : ℝ) / 4⌋ = 2 := by
        rw [Int.floor_eq_iff]
        norm_num
      rw [hf, if_pos (by decide : Even (2 : ℤ)), Int.ceil_eq_iff]
      constructor <;> norm_num
    rw [hpr]
    decide
  · unfold num_rows_spec_formula
    rw [havg, hlen]
    have harg : ((1080 : ℕ) : ℝ) / ((1920 : ℕ) : ℝ) * ((16 : ℝ) / 1) = 9 := by norm_num
    rw [harg]
    have hs : Real.sqrt (9 : ℝ) = 3 := by
      have h : (9 : ℝ) = (3 : ℝ) ^ 2 := by norm_num
      rw [h, Real.sqrt_sq (by norm_num : (0 : ℝ) ≤ 3)]
    rw [hs]
    have hpr : pyRound (3 : ℝ) = 3 := by
      unfold pyRound
      have hf : ⌊(3 : ℝ)⌋ = 3 := by
        rw [Int.floor_eq_iff]
        norm_num
      rw [hf, if_neg (by decide : ¬ Even (3 : ℤ)), Int.floor_eq_iff]
      norm_num
    rw [hpr]
    decide

/-- C1 (amended): when `num_rows` is not supplied, the row count is
`max(1, round((canvas.height/canvas.width) × sqrt(num_images /
mean_aspect_ratio)))` - the square root applies only to
`num_images / mean_aspect_ratio` (Python's `**` binds tighter than `*`) -
and is always at least 1. -/
theorem C1_amended_rowcount (canvas_width canvas_height : ℕ) (ars : List ℝ) :
    num_rows_auto canvas_width canvas_height ars =
      num_rows_amended_formula canvas_width canvas_height ars ∧
    1 ≤ num_rows_auto canvas_width canvas_height ars :=
  ⟨rfl, le_max_left 1 _⟩

end PhotoCollage
